import Mathlib

/-!
Verification development for the ScreammOS kernel core.

The definitions below are a shallow embedding of the Rust sources:
`src/queue.rs` (the scancode ring buffer), `src/memory.rs` (the boot-info
frame allocator and heap bootstrap), `src/keyboard.rs` and
`src/interrupts.rs` (the keyboard interrupt path), and the boot sequencing
in `src/lib.rs` / `src/main.rs`.  Machine integers (`u8`, `u64`, `usize`)
are modelled as `Nat` — none of the embedded code relies on wrap-around.
Rust panics (failed `assert!`, out-of-bounds indexing, `%` by zero) are
modelled by returning `none` from the embedded operation.
-/

set_option autoImplicit false
set_option maxRecDepth 8000

/-! # Part 1: the scancode queue -/

/-! ## Scancode queue (`src/queue.rs`, `ArrayQueue<T>` with `T = u8`)

The Rust struct holds a fixed `[T; 100]` backing array, `head` and `tail`
indices (atomics, but the code is effectively single-threaded per the
spec's single-core model, so plain `Nat` fields are a faithful embedding
of the relaxed loads and stores), and a `capacity` field. -/

structure ArrayQueue where
  /-- models the fixed-size backing array `buffer: [T; 100]`; always of length 100 -/
  buffer : List Nat
  /-- index for dequeue operations -/
  head : Nat
  /-- index for enqueue operations -/
  tail : Nat
  /-- maximum queue capacity -/
  capacity : Nat
  deriving DecidableEq, Repr

/-- Embedding of `ArrayQueue::new`: `assert!(capacity <= 100)` panics
(modelled by `none`) when the requested capacity exceeds the fixed
buffer size; otherwise both indices start at 0 and the buffer holds
`T::default()` (0 for `u8`) in every slot. -/
def ArrayQueue.new (capacity : Nat) : Option ArrayQueue :=
  if capacity ≤ 100 then
    some { buffer := List.replicate 100 0, head := 0, tail := 0, capacity := capacity }
  else
    none

/-- Embedding of `ArrayQueue::push`.  The Rust code computes
`next_tail = (current_tail + 1) % capacity` (panics when `capacity = 0`),
returns `Err(())` (here `false`) when `next_tail == head` without touching
anything, otherwise writes `buffer[current_tail] = item` (panics when the
index is out of the backing array's bounds) and stores `next_tail`. -/
def ArrayQueue.push (q : ArrayQueue) (item : Nat) : Option (Bool × ArrayQueue) :=
  if q.capacity = 0 then
    none
  else
    let next_tail := (q.tail + 1) % q.capacity
    if next_tail = q.head then
      some (false, q)
    else if q.tail < q.buffer.length then
      some (true, { q with buffer := q.buffer.set q.tail item, tail := next_tail })
    else
      none

/-- Embedding of `ArrayQueue::pop`.  The Rust code first compares
`head` with `tail` and returns `None` (here `(none, q)`) when they are
equal; only then does it read `buffer[current_head]` (panic when out of
bounds) and store `(current_head + 1) % capacity` (panic when
`capacity = 0`). -/
def ArrayQueue.pop (q : ArrayQueue) : Option (Option Nat × ArrayQueue) :=
  if q.head = q.tail then
    some (none, q)
  else
    match q.buffer[q.head]? with
    | none => none
    | some item =>
      if q.capacity = 0 then
        none
      else
        some (some item, { q with head := (q.head + 1) % q.capacity })

/-- Result sequence (`Ok`/`Err` per call) and final state of a series of
`push` calls; `none` when some call panicked. -/
def pushSeq (q : ArrayQueue) : List Nat → Option (List Bool × ArrayQueue)
  | [] => some ([], q)
  | b :: bs =>
    match q.push b with
    | none => none
    | some (r, q') =>
      match pushSeq q' bs with
      | none => none
      | some (rs, q'') => some (r :: rs, q'')

/-- Result sequence and final state of `n` consecutive `pop` calls;
`none` when some call panicked. -/
def popN (q : ArrayQueue) : Nat → Option (List (Option Nat) × ArrayQueue)
  | 0 => some ([], q)
  | n + 1 =>
    match q.pop with
    | none => none
    | some (o, q') =>
      match popN q' n with
      | none => none
      | some (os, q'') => some (o :: os, q'')

/-- Push a batch of bytes and then pop as many entries: the observable
push results and popped values of the scenario in §8 of the spec. -/
def pushPopRound (q : ArrayQueue) (items : List Nat) : Option (List Bool × List (Option Nat)) :=
  match pushSeq q items with
  | none => none
  | some (rs, q1) =>
    match popN q1 items.length with
    | none => none
    | some (os, _) => some (rs, os)

/-- Structural well-formedness of a queue as produced by `ArrayQueue.new`
with a usable (non-zero) capacity: backing array of length 100, capacity
between 1 and 100, both indices strictly below the capacity. -/
def QInv (q : ArrayQueue) : Prop :=
  q.buffer.length = 100 ∧ 1 ≤ q.capacity ∧ q.capacity ≤ 100 ∧
    q.head < q.capacity ∧ q.tail < q.capacity

instance (q : ArrayQueue) : Decidable (QInv q) := by
  unfold QInv; infer_instance

example : ArrayQueue.new 3 =
    some { buffer := List.replicate 100 0, head := 0, tail := 0, capacity := 3 } := rfl

example : (ArrayQueue.new 3).bind (fun q => pushPopRound q [10, 20]) =
    some ([true, true], [some 10, some 20]) := by decide

example : (ArrayQueue.new 2).bind (fun q => (pushSeq q [5, 6]).map Prod.fst) =
    some [true, false] := by decide

example : (ArrayQueue.new 0).bind ArrayQueue.pop =
    some (none, { buffer := List.replicate 100 0, head := 0, tail := 0, capacity := 0 }) := by
  decide

example : (ArrayQueue.new 0).bind (fun q => q.push 7) = none := by decide

/-! ### Helper: the contents written by a series of in-bounds pushes -/

/-- Write the given items at consecutive positions `t, t+1, ...` of a buffer. -/
def writeList (buf : List Nat) (t : Nat) : List Nat → List Nat
  | [] => buf
  | b :: bs => writeList (buf.set t b) (t + 1) bs

theorem writeList_length (items : List Nat) :
    ∀ (buf : List Nat) (t : Nat), (writeList buf t items).length = buf.length := by
  induction items with
  | nil => intro buf t; rfl
  | cons b bs ih =>
    intro buf t
    simp [writeList, ih, List.length_set]

theorem writeList_getElem?_of_lt (items : List Nat) :
    ∀ (buf : List Nat) (t p : Nat), p < t → (writeList buf t items)[p]? = buf[p]? := by
  induction items with
  | nil => intro buf t p _; rfl
  | cons b bs ih =>
    intro buf t p hp
    have h1 : p < t + 1 := Nat.lt_succ_of_lt hp
    have h2 : t ≠ p := Nat.ne_of_gt hp
    calc (writeList (buf.set t b) (t + 1) bs)[p]?
        = (buf.set t b)[p]? := ih (buf.set t b) (t + 1) p h1
      _ = buf[p]? := List.getElem?_set_ne h2

theorem writeList_drop_take (items : List Nat) :
    ∀ (buf : List Nat) (t : Nat), t + items.length ≤ buf.length →
      ((writeList buf t items).drop t).take items.length = items := by
  induction items with
  | nil => intro buf t _; simp [writeList]
  | cons b bs ih =>
    intro buf t hlen
    have hlen' : t + bs.length + 1 ≤ buf.length := by
      have : (b :: bs).length = bs.length + 1 := List.length_cons b bs
      omega
    have hset : (buf.set t b).length = buf.length := List.length_set buf t b
    have hW : (writeList (buf.set t b) (t + 1) bs).length = buf.length := by
      rw [writeList_length bs (buf.set t b) (t + 1), hset]
    have ht : t < (writeList (buf.set t b) (t + 1) bs).length := by omega
    have hgt : (writeList (buf.set t b) (t + 1) bs)[t]? = some b := by
      rw [writeList_getElem?_of_lt bs (buf.set t b) (t + 1) t (Nat.lt_succ_self t)]
      exact List.getElem?_set_self (by omega)
    have hget : (writeList (buf.set t b) (t + 1) bs)[t] = b := by
      have h2 := List.getElem?_eq_getElem ht
      rw [h2] at hgt
      exact Option.some.inj hgt
    have hdrop := List.drop_eq_getElem_cons ht
    show ((writeList (buf.set t b) (t + 1) bs).drop t).take (bs.length + 1) = b :: bs
    rw [hdrop, hget, List.take_succ_cons,
      ih (buf.set t b) (t + 1) (by omega)]

/-! ### Linear (wrap-free) runs of push and pop -/

theorem pushSeq_linear (items : List Nat) :
    ∀ (buf : List Nat) (t c : Nat), buf.length = 100 → c ≤ 100 → t + items.length < c →
      pushSeq { buffer := buf, head := 0, tail := t, capacity := c } items =
        some (List.replicate items.length true,
          { buffer := writeList buf t items, head := 0, tail := t + items.length,
            capacity := c }) := by
  induction items with
  | nil => intro buf t c _ _ _; simp [pushSeq, writeList]
  | cons b bs ih =>
    intro buf t c hbuf hc hlt
    have hlt' : t + bs.length + 1 < c := by
      have : (b :: bs).length = bs.length + 1 := List.length_cons b bs
      omega
    have hc0 : c ≠ 0 := by omega
    have ht1 : t + 1 < c := by omega
    have hmod : (t + 1) % c = t + 1 := Nat.mod_eq_of_lt ht1
    have hne : ¬ (t + 1) % c = 0 := by rw [hmod]; omega
    have htb : t < buf.length := by omega
    have hpush : ArrayQueue.push { buffer := buf, head := 0, tail := t, capacity := c } b =
        some (true, { buffer := buf.set t b, head := 0, tail := t + 1, capacity := c }) := by
      simp [ArrayQueue.push, hc0, hne, htb, hmod]
    have hrec := ih (buf.set t b) (t + 1) c (by rw [List.length_set]; exact hbuf) hc
      (by omega)
    simp only [pushSeq, hpush, hrec]
    have harith : t + 1 + bs.length = t + (bs.length + 1) := by omega
    simp only [writeList, List.length_cons, List.replicate_succ, harith]

theorem popN_linear (k : Nat) :
    ∀ (buf : List Nat) (h n c : Nat), buf.length = 100 → h + k = n → n < c → c ≤ 100 →
      popN { buffer := buf, head := h, tail := n, capacity := c } k =
        some (((buf.drop h).take k).map some,
          { buffer := buf, head := n, tail := n, capacity := c }) := by
  induction k with
  | zero =>
    intro buf h n c _ hhn _ _
    subst hhn
    simp [popN]
  | succ k ih =>
    intro buf h n c hbuf hhn hn hc
    have hlt : h < n := by omega
    have hhb : h < buf.length := by omega
    have hget : buf[h]? = some buf[h] := List.getElem?_eq_getElem hhb
    have hc0 : c ≠ 0 := by omega
    have hmod : (h + 1) % c = h + 1 := Nat.mod_eq_of_lt (by omega)
    have hpop : ArrayQueue.pop { buffer := buf, head := h, tail := n, capacity := c } =
        some (some buf[h], { buffer := buf, head := h + 1, tail := n, capacity := c }) := by
      simp [ArrayQueue.pop, Nat.ne_of_lt hlt, hget, hc0, hmod]
    have hrec := ih buf (h + 1) n c hbuf (by omega) hn hc
    simp only [popN, hpop, hrec]
    rw [List.drop_eq_getElem_cons hhb, List.take_succ_cons, List.map_cons]

theorem pushSeq_append (xs ys : List Nat) :
    ∀ q : ArrayQueue, pushSeq q (xs ++ ys) =
      (pushSeq q xs).bind fun p => (pushSeq p.2 ys).map fun p' => (p.1 ++ p'.1, p'.2) := by
  induction xs with
  | nil =>
    intro q
    simp only [List.nil_append, pushSeq, Option.some_bind]
    cases pushSeq q ys with
    | none => rfl
    | some p => rfl
  | cons x xs ih =>
    intro q
    cases hq : q.push x with
    | none => simp [pushSeq, hq]
    | some p =>
      obtain ⟨r, q'⟩ := p
      simp only [List.cons_append, pushSeq, hq, List.append_eq, ih q']
      cases hx : pushSeq q' xs with
      | none => rfl
      | some p' =>
        obtain ⟨rs, q''⟩ := p'
        simp only [Option.some_bind]
        cases hy : pushSeq q'' ys with
        | none => rfl
        | some p'' =>
          obtain ⟨rs', q3⟩ := p''
          simp

/-! ## Claim theorems about the queue -/

/-- C5: for every n with n < capacity and bytes b1..bn, pushing b1..bn into
an empty scancode queue and then popping n times succeeds for every push
and yields exactly b1..bn in that order (strict FIFO below saturation). -/
theorem scancode_queue_fifo (c : Nat) (items : List Nat) (q0 : ArrayQueue)
    (hc : c ≤ 100) (hn : items.length < c) (h0 : ArrayQueue.new c = some q0) :
    pushPopRound q0 items = some (List.replicate items.length true, items.map some) := by
  have hq0 : q0 = { buffer := List.replicate 100 0, head := 0, tail := 0, capacity := c } := by
    unfold ArrayQueue.new at h0
    rw [if_pos hc] at h0
    exact (Option.some.inj h0).symm
  subst hq0
  have hbuf : (List.replicate 100 (0 : Nat)).length = 100 := List.length_replicate 100 0
  have hpush := pushSeq_linear items (List.replicate 100 0) 0 c hbuf hc (by omega)
  have hW : (writeList (List.replicate 100 0) 0 items).length = 100 := by
    rw [writeList_length items (List.replicate 100 0) 0, hbuf]
  have hpop := popN_linear items.length (writeList (List.replicate 100 0) 0 items)
    0 items.length c hW (by omega) hn hc
  have hcontents : ((writeList (List.replicate 100 0) 0 items).drop 0).take items.length
      = items :=
    writeList_drop_take items (List.replicate 100 0) 0 (by rw [hbuf]; omega)
  simp only [pushPopRound, hpush, Nat.zero_add, hpop, hcontents]

/-- Witness for C5: pushing `[10, 20]` into a fresh capacity-3 queue and
popping twice returns both pushes as successful and the bytes in order. -/
theorem scancode_queue_fifo_witness :
    pushPopRound { buffer := List.replicate 100 0, head := 0, tail := 0, capacity := 3 }
        [10, 20] = some (List.replicate 2 true, [10, 20].map some) :=
  scancode_queue_fifo 3 [10, 20] _ (by decide) (by decide) rfl

/-- C6: on a queue constructed with capacity N (usable range 1..100),
starting empty and with no intervening pop, the first N-1 pushes succeed
and the Nth push reports failure; moreover a push onto a full queue
reports failure and leaves the whole queue (entries and both indices)
unchanged. -/
theorem queue_push_fails_at_capacity (c : Nat) (items : List Nat) (q0 : ArrayQueue)
    (hc1 : 1 ≤ c) (hc2 : c ≤ 100) (hlen : items.length = c) (h0 : ArrayQueue.new c = some q0) :
    (pushSeq q0 items).map Prod.fst = some (List.replicate (c - 1) true ++ [false])
    ∧ ∀ (q : ArrayQueue) (b : Nat), q.capacity ≠ 0 →
        (q.tail + 1) % q.capacity = q.head → q.push b = some (false, q) := by
  constructor
  · have hq0 : q0 = { buffer := List.replicate 100 0, head := 0, tail := 0, capacity := c } := by
      unfold ArrayQueue.new at h0
      rw [if_pos hc2] at h0
      exact (Option.some.inj h0).symm
    subst hq0
    have hbuf : (List.replicate 100 (0 : Nat)).length = 100 := List.length_replicate 100 0
    have hlen1 : (items.take (c - 1)).length = c - 1 := by
      rw [List.length_take]
      omega
    have hpush1 := pushSeq_linear (items.take (c - 1)) (List.replicate 100 0) 0 c hbuf hc2
      (by rw [Nat.zero_add, hlen1]; omega)
    have hdlen : (items.drop (c - 1)).length = 1 := by
      rw [List.length_drop]
      omega
    obtain ⟨d, hd⟩ := List.length_eq_one.mp hdlen
    have hsplit : items = items.take (c - 1) ++ [d] := by
      conv_lhs => rw [← List.take_append_drop (c - 1) items]
      rw [hd]
    have hc0 : c ≠ 0 := by omega
    rw [Nat.zero_add, hlen1] at hpush1
    have hmodself : (c - 1 + 1) % c = 0 := by
      rw [(by omega : c - 1 + 1 = c)]
      exact Nat.mod_self c
    have hpush2 : ∀ W : List Nat,
        pushSeq { buffer := W, head := 0, tail := c - 1, capacity := c } [d]
          = some ([false], { buffer := W, head := 0, tail := c - 1, capacity := c }) := by
      intro W
      simp [pushSeq, ArrayQueue.push, hc0, hmodself]
    conv_lhs => rw [hsplit]
    rw [pushSeq_append, hpush1]
    simp only [Option.some_bind, hpush2, Option.map_some']
  · intro q b hcap hfull
    simp [ArrayQueue.push, hcap, hfull]

/-- Witness for C6: with capacity 2 the first push succeeds and the second
(the Nth) fails. -/
theorem queue_push_fails_at_capacity_witness :
    (pushSeq { buffer := List.replicate 100 0, head := 0, tail := 0, capacity := 2 }
        [5, 6]).map Prod.fst = some (List.replicate 1 true ++ [false]) :=
  (queue_push_fails_at_capacity 2 [5, 6] _ (by decide) (by decide) rfl rfl).1

/-- C10 counterexample: the claim asserts that on a queue built by
`new(0)` "the first push or pop panics due to a modulo-by-zero".  Pop on
the fresh capacity-0 queue does NOT panic: `head == tail` is checked
before the modulo is ever computed, so `pop` cleanly returns `None` and
leaves the state untouched. -/
theorem queue_zero_capacity_pop_no_panic :
    (ArrayQueue.new 0).bind ArrayQueue.pop =
      some (none, { buffer := List.replicate 100 0, head := 0, tail := 0, capacity := 0 }) := by
  decide

/-- C10 as amended: `new(capacity)` panics exactly when capacity > 100;
for a well-formed queue with 1 ≤ capacity ≤ 100 neither push nor pop can
panic and the only buffer indices they use (`tail` for push, `head` for
pop) are below 100; `new(0)` succeeds, every push on the resulting queue
panics on the modulo-by-zero, while pop on the (necessarily empty) queue
returns None without panicking. -/
theorem queue_capacity_safety :
    (∀ c, 100 < c → ArrayQueue.new c = none)
    ∧ (∀ c, c ≤ 100 → ArrayQueue.new c =
        some { buffer := List.replicate 100 0, head := 0, tail := 0, capacity := c })
    ∧ (∀ (q : ArrayQueue) (b : Nat), QInv q →
        q.tail < 100 ∧ ∃ r q', q.push b = some (r, q') ∧ QInv q')
    ∧ (∀ q : ArrayQueue, QInv q →
        q.head < 100 ∧ ∃ o q', q.pop = some (o, q') ∧ QInv q')
    ∧ ∀ q0, ArrayQueue.new 0 = some q0 →
        (∀ b, q0.push b = none) ∧ q0.pop = some (none, q0) := by
  refine ⟨?_, ?_, ?_, ?_, ?_⟩
  · intro c hc
    unfold ArrayQueue.new
    rw [if_neg (by omega)]
  · intro c hc
    unfold ArrayQueue.new
    rw [if_pos hc]
  · rintro q b ⟨hbuf, hc1, hc2, hh, ht⟩
    refine ⟨by omega, ?_⟩
    have hc0 : q.capacity ≠ 0 := by omega
    have hmodlt : (q.tail + 1) % q.capacity < q.capacity := Nat.mod_lt _ (by omega)
    by_cases hfull : (q.tail + 1) % q.capacity = q.head
    · exact ⟨false, q, by simp [ArrayQueue.push, hc0, hfull], hbuf, hc1, hc2, hh, ht⟩
    · refine ⟨true,
        { q with buffer := q.buffer.set q.tail b, tail := (q.tail + 1) % q.capacity },
        ?_, ?_⟩
      · simp [ArrayQueue.push, hc0, hfull, (by omega : q.tail < q.buffer.length)]
      · exact ⟨by rw [List.length_set]; exact hbuf, hc1, hc2, hh, hmodlt⟩
  · rintro q ⟨hbuf, hc1, hc2, hh, ht⟩
    refine ⟨by omega, ?_⟩
    by_cases hempty : q.head = q.tail
    · exact ⟨none, q, by simp [ArrayQueue.pop, hempty], hbuf, hc1, hc2, hh, ht⟩
    · have hhb : q.head < q.buffer.length := by omega
      have hget : q.buffer[q.head]? = some (q.buffer.get ⟨q.head, hhb⟩) := by
        rw [List.getElem?_eq_getElem hhb]
        rfl
      have hcne : ¬ q.capacity = 0 := by omega
      refine ⟨some (q.buffer.get ⟨q.head, hhb⟩),
        { q with head := (q.head + 1) % q.capacity }, ?_, ?_⟩
      · simp [ArrayQueue.pop, hempty, hget, hcne]
      · exact ⟨hbuf, hc1, hc2, Nat.mod_lt _ (by omega), ht⟩
  · intro q0 h0
    have hq0 : q0 = { buffer := List.replicate 100 0, head := 0, tail := 0, capacity := 0 } := by
      unfold ArrayQueue.new at h0
      rw [if_pos (by omega)] at h0
      exact (Option.some.inj h0).symm
    subst hq0
    exact ⟨fun b => rfl, rfl⟩

/-! # Part 2: the boot-info frame allocator (`src/memory.rs`)

`BootInfoFrameAllocator` holds the bootloader's memory map, a cursor
`next` into the sequence of usable frame addresses, and the fixed
`allocated_frames: [u64; 64]` record together with `allocated_count`.
The Lean field `allocated_frames` models the array's first
`allocated_count` slots (the only ones the Rust code ever reads),
oldest entry first.  Frame/physical addresses (`u64`) are `Nat`. -/

structure MemRegion where
  /-- models `r.range.start_addr()` -/
  startAddr : Nat
  /-- models `r.range.end_addr()` -/
  endAddr : Nat
  /-- models `r.region_type == MemoryRegionType::Usable` -/
  usable : Bool
  deriving DecidableEq, Repr

/-- Rust `(start..stop).step_by(4096)`: the addresses
`start, start + 4096, ...` that are strictly below `stop`. -/
def stepBy4096 (start stop : Nat) : List Nat :=
  (List.range ((stop - start + 4095) / 4096)).map fun i => start + 4096 * i

/-- Embedding of `BootInfoFrameAllocator::usable_frames`: filter the map
down to usable regions, walk each address range in 4096-byte strides, and
take the containing frame of each address
(`PhysFrame::containing_address` rounds down to a 4096 multiple). -/
def usableFrames (memory_map : List MemRegion) : List Nat :=
  (((memory_map.filter fun r => r.usable).flatMap
      fun r => stepBy4096 r.startAddr r.endAddr).map
    fun addr => addr / 4096 * 4096)

structure BootInfoFrameAllocator where
  memory_map : List MemRegion
  next : Nat
  /-- the first `allocated_count` slots of the 64-entry recent-issue array -/
  allocated_frames : List Nat
  deriving DecidableEq, Repr

/-- Embedding of `BootInfoFrameAllocator::init`: cursor at 0, empty
recent-issue record (`allocated_count = 0`). -/
def BootInfoFrameAllocator.init (memory_map : List MemRegion) : BootInfoFrameAllocator :=
  { memory_map := memory_map, next := 0, allocated_frames := [] }

/-- Embedding of `is_frame_allocated`: scan the first `allocated_count`
entries of the record for the address. -/
def BootInfoFrameAllocator.is_frame_allocated (a : BootInfoFrameAllocator) (addr : Nat) : Bool :=
  a.allocated_frames.contains addr

/-- Record update of `mark_frame_allocated`: append while fewer than 64
entries are recorded; once the array is full, shift every entry left by
one (dropping the oldest) and write the new address in the last slot. -/
def markList (record : List Nat) (addr : Nat) : List Nat :=
  if record.length < 64 then record ++ [addr] else record.drop 1 ++ [addr]

/-- Embedding of `mark_frame_allocated`. -/
def BootInfoFrameAllocator.mark_frame_allocated (a : BootInfoFrameAllocator) (addr : Nat) :
    BootInfoFrameAllocator :=
  { a with allocated_frames := markList a.allocated_frames addr }

/-- The scan loop inside `allocate_frame`, running over the iterator
`usable_frames().skip(next)` (the list argument).  Every inspected frame
advances `self.next` by one; a frame present in the recent-issue record
is skipped; the first fresh frame is marked and returned.  `frame_iter
.next()` returning `None` makes the whole call return `None` (keeping the
cursor increments already performed). -/
def allocateFrameAux : BootInfoFrameAllocator → List Nat → Option Nat × BootInfoFrameAllocator
  | a, [] => (none, a)
  | a, f :: rest =>
    let a1 := { a with next := a.next + 1 }
    if a1.is_frame_allocated f then
      allocateFrameAux a1 rest
    else
      (some f, a1.mark_frame_allocated f)

/-- Embedding of `allocate_frame` from the `FrameAllocator` impl. -/
def BootInfoFrameAllocator.allocate_frame (a : BootInfoFrameAllocator) :
    Option Nat × BootInfoFrameAllocator :=
  allocateFrameAux a ((usableFrames a.memory_map).drop a.next)

/-- State after `n` successive `allocate_frame` calls. -/
def allocSteps (a : BootInfoFrameAllocator) : Nat → BootInfoFrameAllocator
  | 0 => a
  | n + 1 => (allocSteps a n).allocate_frame.2

/-- Result of the `n`-th (0-indexed) `allocate_frame` call. -/
def allocResult (a : BootInfoFrameAllocator) (n : Nat) : Option Nat :=
  (allocSteps a n).allocate_frame.1

/-- All addresses issued by the first `n` calls, oldest first. -/
def issuedUpTo (a : BootInfoFrameAllocator) : Nat → List Nat
  | 0 => []
  | n + 1 => issuedUpTo a n ++ (allocResult a n).toList

/-- The last (up to) `n` elements of a list. -/
def lastN (n : Nat) (l : List Nat) : List Nat := l.drop (l.length - n)

theorem lastN_length (n : Nat) (l : List Nat) : (lastN n l).length = min n l.length := by
  simp only [lastN, List.length_drop]
  omega

theorem lastN_snoc (l : List Nat) (x : Nat) :
    lastN 64 (l ++ [x]) = markList (lastN 64 l) x := by
  have hlen : (lastN 64 l).length = min 64 l.length := lastN_length 64 l
  by_cases h : l.length < 64
  · have h1 : l.length + 1 - 64 = 0 := by omega
    have h2 : l.length - 64 = 0 := by omega
    simp only [markList, lastN, List.length_append, List.length_cons, List.length_nil,
      List.length_drop]
    rw [if_pos (by omega)]
    simp [h1, h2]
  · have h1 : l.length + 1 - 64 ≤ l.length := by omega
    simp only [markList, lastN, List.length_append, List.length_cons, List.length_nil,
      List.length_drop]
    rw [if_neg (by omega)]
    rw [(by omega : l.length + (0 + 1) - 64 = l.length + 1 - 64),
      List.drop_append_of_le_length h1, List.drop_drop,
      (by omega : l.length - 64 + 1 = l.length + 1 - 64)]

theorem mem_lastN_middle (l m : List Nat) (x : Nat) (hm : m.length + 1 ≤ 64) :
    x ∈ lastN 64 (l ++ x :: m) := by
  unfold lastN
  have hk : (l ++ x :: m).length - 64 ≤ l.length := by
    simp only [List.length_append, List.length_cons]
    omega
  rw [List.drop_append_of_le_length hk]
  exact List.mem_append_right _ (List.mem_cons_self x m)

theorem allocateFrameAux_some (l : List Nat) :
    ∀ (a : BootInfoFrameAllocator) (f : Nat) (a' : BootInfoFrameAllocator),
      allocateFrameAux a l = (some f, a') →
      a.allocated_frames.contains f = false
      ∧ a'.allocated_frames = markList a.allocated_frames f
      ∧ a.next < a'.next
      ∧ a'.memory_map = a.memory_map := by
  induction l with
  | nil =>
    intro a f a' h
    exact absurd h (by simp [allocateFrameAux])
  | cons g rest ih =>
    intro a f a' h
    simp only [allocateFrameAux] at h
    by_cases hc : ({ a with next := a.next + 1 } : BootInfoFrameAllocator).is_frame_allocated g
    · rw [if_pos hc] at h
      obtain ⟨h1, h2, h3, h4⟩ := ih { a with next := a.next + 1 } f a' h
      have h3' : a.next + 1 < a'.next := h3
      exact ⟨h1, h2, by omega, h4⟩
    · rw [if_neg hc] at h
      obtain ⟨hf, ha'⟩ := Prod.mk.injEq .. ▸ h
      have hfg : g = f := Option.some.inj hf
      subst hfg
      subst ha'
      refine ⟨?_, rfl, Nat.lt_succ_self a.next, rfl⟩
      simpa [BootInfoFrameAllocator.is_frame_allocated] using hc

theorem allocateFrameAux_none (l : List Nat) :
    ∀ (a a' : BootInfoFrameAllocator), allocateFrameAux a l = (none, a') →
      a'.allocated_frames = a.allocated_frames ∧ a'.memory_map = a.memory_map := by
  induction l with
  | nil =>
    intro a a' h
    simp only [allocateFrameAux] at h
    obtain ⟨-, ha'⟩ := Prod.mk.injEq .. ▸ h
    subst ha'
    exact ⟨rfl, rfl⟩
  | cons g rest ih =>
    intro a a' h
    simp only [allocateFrameAux] at h
    by_cases hc : ({ a with next := a.next + 1 } : BootInfoFrameAllocator).is_frame_allocated g
    · rw [if_pos hc] at h
      exact ih { a with next := a.next + 1 } a' h
    · rw [if_neg hc] at h
      exact absurd (congrArg Prod.fst h) (by simp)

theorem allocate_frame_some_spec (a : BootInfoFrameAllocator) (f : Nat)
    (a' : BootInfoFrameAllocator) (h : a.allocate_frame = (some f, a')) :
    a.allocated_frames.contains f = false
    ∧ a'.allocated_frames = markList a.allocated_frames f
    ∧ a.next < a'.next
    ∧ a'.memory_map = a.memory_map :=
  allocateFrameAux_some _ a f a' h

theorem allocResult_fresh (a : BootInfoFrameAllocator) (n : Nat) (f : Nat)
    (h : allocResult a n = some f) :
    (allocSteps a n).allocated_frames.contains f = false := by
  have hP : (allocSteps a n).allocate_frame =
      (some f, (allocSteps a n).allocate_frame.2) := by
    rw [← h]
    exact Prod.mk.eta.symm
  exact (allocate_frame_some_spec _ _ _ hP).1

theorem issuedUpTo_succ_some (a : BootInfoFrameAllocator) (n : Nat) (x : Nat)
    (h : allocResult a n = some x) :
    issuedUpTo a (n + 1) = issuedUpTo a n ++ [x] := by
  show issuedUpTo a n ++ (allocResult a n).toList = _
  rw [h]
  rfl

/-- Run invariant: after any number of calls starting from `init`, the
recent-issue record is exactly the last (up to) 64 issued addresses. -/
theorem allocSteps_record (m : List MemRegion) :
    ∀ n : Nat, (allocSteps (BootInfoFrameAllocator.init m) n).allocated_frames
      = lastN 64 (issuedUpTo (BootInfoFrameAllocator.init m) n) := by
  intro n
  induction n with
  | zero => rfl
  | succ n ih =>
    cases hres : allocResult (BootInfoFrameAllocator.init m) n with
    | none =>
      have hP : (allocSteps (BootInfoFrameAllocator.init m) n).allocate_frame =
          (none, (allocSteps (BootInfoFrameAllocator.init m) n).allocate_frame.2) := by
        rw [← hres]
        exact Prod.mk.eta.symm
      obtain ⟨hrec, -⟩ := allocateFrameAux_none _ _ _ hP
      show ((allocSteps (BootInfoFrameAllocator.init m) n).allocate_frame.2).allocated_frames
        = lastN 64 (issuedUpTo (BootInfoFrameAllocator.init m) n
            ++ (allocResult (BootInfoFrameAllocator.init m) n).toList)
      rw [hrec, hres, ih]
      simp
    | some x =>
      have hP : (allocSteps (BootInfoFrameAllocator.init m) n).allocate_frame =
          (some x, (allocSteps (BootInfoFrameAllocator.init m) n).allocate_frame.2) := by
        rw [← hres]
        exact Prod.mk.eta.symm
      obtain ⟨-, hrec, -, -⟩ := allocate_frame_some_spec _ _ _ hP
      show ((allocSteps (BootInfoFrameAllocator.init m) n).allocate_frame.2).allocated_frames
        = lastN 64 (issuedUpTo (BootInfoFrameAllocator.init m) n
            ++ (allocResult (BootInfoFrameAllocator.init m) n).toList)
      rw [hrec, hres, ih, Option.toList_some, lastN_snoc]

theorem issuedUpTo_decomp (a : BootInfoFrameAllocator) (i : Nat) :
    ∀ j : Nat, i ≤ j →
      ∃ ext : List Nat, issuedUpTo a j = issuedUpTo a i ++ ext ∧ ext.length ≤ j - i := by
  intro j
  induction j with
  | zero =>
    intro h
    have hi : i = 0 := by omega
    subst hi
    exact ⟨[], by simp [issuedUpTo], by simp⟩
  | succ j ih =>
    intro h
    by_cases hij : i ≤ j
    · obtain ⟨ext, he, hl⟩ := ih hij
      refine ⟨ext ++ (allocResult a j).toList, ?_, ?_⟩
      · show issuedUpTo a j ++ (allocResult a j).toList = _
        rw [he, List.append_assoc]
      · have htl : (allocResult a j).toList.length ≤ 1 := by
          cases allocResult a j <;> simp
        rw [List.length_append]
        omega
    · have hij' : i = j + 1 := by omega
      subst hij'
      exact ⟨[], by simp, by simp⟩

/-- C4: within the 64-entry recent-issue window, `allocate_frame` never
returns the same physical frame address twice; moreover every call that
returns `Some` advances the cursor by at least one position and inserts
the returned address into the recent-issue record, evicting the oldest
entry when the 64-entry record is full. -/
theorem allocate_frame_window_distinct (m : List MemRegion) (i j x y : Nat)
    (hij : i < j) (hwin : j ≤ i + 64)
    (hx : allocResult (BootInfoFrameAllocator.init m) i = some x)
    (hy : allocResult (BootInfoFrameAllocator.init m) j = some y) :
    x ≠ y
    ∧ ∀ (a a' : BootInfoFrameAllocator) (f : Nat), a.allocate_frame = (some f, a') →
        a.next < a'.next ∧ a'.allocated_frames = markList a.allocated_frames f := by
  constructor
  · intro heq
    have hx1 := issuedUpTo_succ_some (BootInfoFrameAllocator.init m) i x hx
    obtain ⟨ext, he, hl⟩ := issuedUpTo_decomp (BootInfoFrameAllocator.init m) (i + 1) j
      (by omega)
    have hmem : x ∈ lastN 64 (issuedUpTo (BootInfoFrameAllocator.init m) j) := by
      rw [he, hx1, List.append_assoc]
      simp only [List.singleton_append]
      exact mem_lastN_middle _ _ _ (by omega)
    have hfresh := allocResult_fresh (BootInfoFrameAllocator.init m) j y hy
    rw [allocSteps_record m j] at hfresh
    have hnot : y ∉ lastN 64 (issuedUpTo (BootInfoFrameAllocator.init m) j) := by
      simpa using hfresh
    rw [heq] at hmem
    exact hnot hmem
  · intro a a' f h
    obtain ⟨-, h2, h3, -⟩ := allocate_frame_some_spec a f a' h
    exact ⟨h3, h2⟩

/-- Witness for C4: on a memory map with one usable 16 KiB region the
first two calls return the distinct frames 0 and 4096. -/
theorem allocate_frame_window_distinct_witness : (0 : Nat) ≠ 4096 :=
  (allocate_frame_window_distinct [⟨0, 16384, true⟩] 0 1 0 4096
    (by decide) (by decide) rfl rfl).1

/-! # Part 3: heap bootstrap (`init_heap` / `try_map_page` in `src/memory.rs`)

`init_heap` is generic over a `Mapper` and a `FrameAllocator` (both taken
by `&mut`); the pair of them is modelled as an abstract state `S`
threaded through `tryMap`, the embedding of one `try_map_page` call
(`allocate_frame().ok_or(FrameAllocationFailed)` followed by `map_to`).
The per-page retry loop has `max_attempts = 3`: the Lean fuel argument
`attemptsLeft` equals `max_attempts - attempts`, so the guarded arm
`Err(FrameAllocationFailed) if attempts < max_attempts` corresponds to
`attemptsLeft = n + 1` and the escalation to `attemptsLeft = 0`. -/

inductive MapError where
  /-- `MapToError::FrameAllocationFailed` -/
  | FrameAllocationFailed
  /-- `MapToError::PageAlreadyMapped(_)` (the frame payload is dropped) -/
  | PageAlreadyMapped
  /-- `MapToError::ParentEntryHugePage` -/
  | ParentEntryHugePage
  deriving DecidableEq, Repr

/-- Heap base `0x_4444_4444_0000` from `src/memory.rs`. -/
def HEAP_START : Nat := 0x444444440000

/-- Heap size `500 * 1024` from `src/memory.rs`. -/
def HEAP_SIZE : Nat := 500 * 1024

/-- Page indices of `Page::range_inclusive(heap_start_page, heap_end_page)`
over `[HEAP_START, HEAP_START + HEAP_SIZE - 1]`. -/
def heapPages : List Nat :=
  (List.range ((HEAP_START + HEAP_SIZE - 1) / 4096 - HEAP_START / 4096 + 1)).map
    fun i => HEAP_START / 4096 + i

/-- The `loop` inside `init_heap` for one page: `Ok` breaks;
`FrameAllocationFailed` retries while attempts remain and is returned by
the catch-all `Err(e)` arm once they are exhausted; `PageAlreadyMapped`
logs and breaks (treated as success for this page); any other error is
returned. -/
def mapPageLoop {S : Type} (tryMap : S → Nat → Except MapError Unit × S) (page : Nat) :
    Nat → S → Except MapError Unit × S
  | attemptsLeft, s =>
    match tryMap s page with
    | (.ok _, s') => (.ok (), s')
    | (.error .FrameAllocationFailed, s') =>
      match attemptsLeft with
      | n + 1 => mapPageLoop tryMap page n s'
      | 0 => (.error .FrameAllocationFailed, s')
    | (.error .PageAlreadyMapped, s') => (.ok (), s')
    | (.error .ParentEntryHugePage, s') => (.error .ParentEntryHugePage, s')

/-- The `for page in page_range` loop of `init_heap`: each page runs the
retry loop (3 retries after the first attempt); a non-benign error
aborts the loop and is returned. -/
def initHeapPages {S : Type} (tryMap : S → Nat → Except MapError Unit × S) :
    List Nat → S → Except MapError Unit × S
  | [], s => (.ok (), s)
  | p :: ps, s =>
    match mapPageLoop tryMap p 3 s with
    | (.ok _, s') => initHeapPages tryMap ps s'
    | (.error e, s') => (.error e, s')

/-- Embedding of `init_heap`: map every heap page, and only after the
whole loop has succeeded run `ALLOCATOR.lock().init(HEAP_START, HEAP_SIZE)`.
The final `Nat` counts how many times the global allocator initialization
was executed on this path. -/
def init_heap {S : Type} (tryMap : S → Nat → Except MapError Unit × S)
    (pages : List Nat) (s : S) : (Except MapError Unit × S) × Nat :=
  match initHeapPages tryMap pages s with
  | (.ok _, s') => ((.ok (), s'), 1)
  | (.error e, s') => ((.error e, s'), 0)

/-- Mapper/allocator pair of spec Scenario B: `try_map_page` succeeds
while unallocated frames remain (consuming one per mapped page) and
fails with `FrameAllocationFailed` once the allocator is exhausted.  The
second component counts `try_map_page` invocations. -/
def tryMapScenB (s : Nat × Nat) (page : Nat) : Except MapError Unit × (Nat × Nat) :=
  match s, page with
  | (0, calls), _ => (.error .FrameAllocationFailed, (0, calls + 1))
  | (rem + 1, calls), _ => (.ok (), (rem, calls + 1))

example : heapPages.length = 125 := by decide

example : (init_heap tryMapScenB (List.range 25) ((24 : Nat), (0 : Nat))).1.2 = (0, 28) := rfl

theorem mapPageLoop_no_pam {S : Type} (tryMap : S → Nat → Except MapError Unit × S)
    (page : Nat) :
    ∀ (n : Nat) (s : S), (mapPageLoop tryMap page n s).1 ≠ .error .PageAlreadyMapped := by
  intro n
  induction n with
  | zero =>
    intro s
    unfold mapPageLoop
    rcases h : tryMap s page with ⟨r, s'⟩
    rcases r with e | -
    · cases e <;> simp
    · simp
  | succ n ih =>
    intro s
    unfold mapPageLoop
    rcases h : tryMap s page with ⟨r, s'⟩
    rcases r with e | -
    · cases e with
      | FrameAllocationFailed => exact ih s'
      | PageAlreadyMapped => simp
      | ParentEntryHugePage => simp
    · simp

theorem initHeapPages_no_pam {S : Type} (tryMap : S → Nat → Except MapError Unit × S) :
    ∀ (pages : List Nat) (s : S),
      (initHeapPages tryMap pages s).1 ≠ .error .PageAlreadyMapped := by
  intro pages
  induction pages with
  | nil =>
    intro s
    simp [initHeapPages]
  | cons p ps ih =>
    intro s
    unfold initHeapPages
    rcases hm : mapPageLoop tryMap p 3 s with ⟨r, s'⟩
    rcases r with e | -
    · have hne := mapPageLoop_no_pam tryMap p 3 s
      rw [hm] at hne
      simpa using hne
    · exact ih s'

/-- C7: a page-mapping failure with `FrameAllocationFailed` is retried up
to 3 times before the error escapes `init_heap`; in Scenario B (25 pages,
24 available frames) the 25th page fails after exactly 1 + 3 attempts,
for 28 `try_map_page` calls in total, and `init_heap` returns
`FrameAllocationFailed`. -/
theorem init_heap_retry_bound :
    (init_heap tryMapScenB (List.range 25) ((24 : Nat), (0 : Nat))).1.1
        = .error .FrameAllocationFailed
    ∧ (init_heap tryMapScenB (List.range 25) ((24 : Nat), (0 : Nat))).1.2 = (0, 28)
    ∧ ∀ calls : Nat, mapPageLoop tryMapScenB 24 3 (0, calls)
        = (.error .FrameAllocationFailed, (0, calls + 4)) := by
  refine ⟨rfl, rfl, ?_⟩
  intro calls
  rfl

/-- C8: a `PageAlreadyMapped` outcome is benign: the affected page is
skipped after that single `try_map_page` call (no retry, no re-mapping),
the page loop continues with the remaining pages, and `init_heap` never
propagates `PageAlreadyMapped` to its caller. -/
theorem init_heap_page_already_mapped {S : Type}
    (tryMap : S → Nat → Except MapError Unit × S) (pages : List Nat) (s : S) :
    ((init_heap tryMap pages s).1.1 ≠ .error .PageAlreadyMapped)
    ∧ (∀ (p n : Nat) (s' : S), tryMap s p = (.error .PageAlreadyMapped, s') →
        mapPageLoop tryMap p n s = (.ok (), s'))
    ∧ (∀ (p : Nat) (ps : List Nat) (s' : S),
        tryMap s p = (.error .PageAlreadyMapped, s') →
        initHeapPages tryMap (p :: ps) s = initHeapPages tryMap ps s') := by
  refine ⟨?_, ?_, ?_⟩
  · unfold init_heap
    rcases hh : initHeapPages tryMap pages s with ⟨r, s'⟩
    have hne := initHeapPages_no_pam tryMap pages s
    rw [hh] at hne
    rcases r with e | -
    · simpa using hne
    · simp
  · intro p n s' h
    unfold mapPageLoop
    rw [h]
  · intro p ps s' h
    have hloop : mapPageLoop tryMap p 3 s = (.ok (), s') := by
      unfold mapPageLoop
      rw [h]
    have hstep : initHeapPages tryMap (p :: ps) s
        = match mapPageLoop tryMap p 3 s with
          | (.ok _, s') => initHeapPages tryMap ps s'
          | (.error e, s') => (.error e, s') := rfl
    rw [hstep, hloop]

/-- Mapper that reports every page as already mapped (for the C8 witness). -/
def tryMapAllMapped (s : Nat) (page : Nat) : Except MapError Unit × Nat :=
  match page with
  | _ => (.error .PageAlreadyMapped, s)

/-- Witness for C8: a page whose mapping attempt reports
`PageAlreadyMapped` is resolved by a single call, as a success. -/
theorem init_heap_page_already_mapped_witness :
    mapPageLoop tryMapAllMapped 7 3 (0 : Nat) = (.ok (), 0) :=
  (init_heap_page_already_mapped tryMapAllMapped [] 0).2.1 7 3 0 rfl

/-- C9: on every run of `init_heap` the global dynamic allocator is
initialized at most once; it is initialized exactly when every page of
the heap range was processed successfully, and on every error path the
initialization count is 0 (the allocator is untouched). -/
theorem init_heap_allocator_once {S : Type}
    (tryMap : S → Nat → Except MapError Unit × S) (s : S) :
    (init_heap tryMap heapPages s).2 ≤ 1
    ∧ ((init_heap tryMap heapPages s).1.1 = .ok () → (init_heap tryMap heapPages s).2 = 1)
    ∧ ((init_heap tryMap heapPages s).2 = 1 → (init_heap tryMap heapPages s).1.1 = .ok ())
    ∧ ∀ e : MapError, (init_heap tryMap heapPages s).1.1 = .error e →
        (init_heap tryMap heapPages s).2 = 0 := by
  unfold init_heap
  rcases hh : initHeapPages tryMap heapPages s with ⟨r, s'⟩
  rcases r with e | -
  · exact ⟨by simp, fun h => by simp at h, fun h => by simp at h, fun e' _ => rfl⟩
  · exact ⟨by simp, fun _ => rfl, fun _ => rfl, fun e he => by simp at he⟩

/-- Witness for C9: with an exhausted allocator `init_heap` fails and the
allocator-initialization count is 0. -/
theorem init_heap_allocator_once_witness :
    (init_heap tryMapScenB heapPages ((0 : Nat), (0 : Nat))).2 = 0 :=
  (init_heap_allocator_once tryMapScenB ((0 : Nat), (0 : Nat))).2.2.2
    .FrameAllocationFailed rfl

/-! # Part 4: the keyboard interrupt path
(`src/interrupts.rs` lines 92-109, `src/keyboard.rs`)

The relevant global state: `SCANCODE_QUEUE: Mutex<Option<ArrayQueue<u8>>>`,
`KEYBOARD_INITIALIZED: AtomicBool`, the `pc_keyboard` decoder behind the
`KEYBOARD` mutex, and the sink the decoded keys are delivered to
(`process_special_key` / `process_normal_key`, which drive the UI and
`CURRENT_LINE`).  `pc_keyboard`'s `add_byte`/`process_keyevent` pipeline
is an external crate modelled as an abstract step function `dec` from
decoder state and scancode to a new decoder state and an optional
decoded key.  The spin mutexes always succeed in this single-context
model of one ISR dispatch. -/

structure KState where
  /-- contents of `SCANCODE_QUEUE` (`None` before `keyboard::init`) -/
  scancode_queue : Option ArrayQueue
  /-- `KEYBOARD_INITIALIZED` -/
  keyboard_initialized : Bool
  /-- abstract `pc_keyboard::Keyboard` decoder state -/
  decoder : Nat
  /-- keys delivered to `process_special_key`/`process_normal_key` -/
  line : List Nat
  /-- end-of-interrupt notifications sent to the PICs, in order -/
  eoi : List Nat
  deriving DecidableEq, Repr

/-- State at static-initialization time: queue not yet constructed. -/
def initialKState : KState :=
  { scancode_queue := none, keyboard_initialized := false, decoder := 0,
    line := [], eoi := [] }

/-- Embedding of `keyboard::init` (keyboard.rs:52-63): store
`Some(ArrayQueue::new(SCANCODE_QUEUE_SIZE))` with
`SCANCODE_QUEUE_SIZE = 100` and set `KEYBOARD_INITIALIZED`.
(`ArrayQueue.new 100` cannot panic, so the `Option` returned by the
embedded constructor coincides with the `Some(...)` stored here.) -/
def keyboard_init (s : KState) : KState :=
  { s with scancode_queue := ArrayQueue.new 100, keyboard_initialized := true }

/-- Embedding of `handle_scancode` (keyboard.rs:173-182): lock the
decoder, feed it the byte, and when a key is decoded hand it to
`process_special_key`/`process_normal_key` (modelled as appending to
`line`).  The scancode queue is not touched. -/
def handle_scancode (dec : Nat → Nat → Nat × Option Nat) (s : KState) (scancode : Nat) :
    KState :=
  match dec s.decoder scancode with
  | (d', some key) => { s with decoder := d', line := s.line ++ [key] }
  | (d', none) => { s with decoder := d' }

/-- Embedding of `keyboard_interrupt_handler` (interrupts.rs:92-109), the
handler installed at vector 33 (`PIC_1_OFFSET + 1`): read the scancode
byte from data port 0x60 (the `scancode` argument), pass it to
`handle_scancode`, then send end-of-interrupt for vector 33. -/
def keyboard_interrupt_handler (dec : Nat → Nat → Nat × Option Nat) (s : KState)
    (scancode : Nat) : KState :=
  let s1 := handle_scancode dec s scancode
  { s1 with eoi := s1.eoi ++ [33] }

/-- Embedding of `get_scancode` (keyboard.rs:122-141), the consumer-side
`pop_scancode`: `None` when the keyboard is not initialized or the queue
is absent; otherwise pop from the queue.  The outer `Option` models a
pop panic, which cannot happen on the capacity-100 queue. -/
def get_scancode (s : KState) : Option (Option Nat × KState) :=
  if s.keyboard_initialized = false then
    some (none, s)
  else
    match s.scancode_queue with
    | none => some (none, s)
    | some q =>
      match q.pop with
      | none => none
      | some (o, q') => some (o, { s with scancode_queue := some q' })

/-- A concrete decoder step for the counterexample: every byte advances
the decoder state and decodes to itself. -/
def decStep : Nat → Nat → Nat × Option Nat := fun d sc => (d + 1, some sc)

/-- C1 counterexample: dispatch the keyboard vector (33) with hardware
byte `0x1E` on a freshly initialized keyboard.  The byte is NOT
retrievable via `pop_scancode`: the ISR decoded it synchronously inside
interrupt context via `handle_scancode` and never pushed it onto the
scancode queue, so the queue is still empty and the pop yields `none`. -/
theorem keyboard_isr_byte_not_in_queue :
    get_scancode (keyboard_interrupt_handler decStep (keyboard_init initialKState) 0x1E)
      = some (none, keyboard_interrupt_handler decStep (keyboard_init initialKState) 0x1E)
    ∧ (keyboard_interrupt_handler decStep (keyboard_init initialKState) 0x1E).line
      = [0x1E] := by
  constructor
  · rfl
  · rfl

/-- C1 as amended: the keyboard ISR reads the scancode byte from the
data port, decodes and processes it synchronously inside interrupt
context through `handle_scancode` (updating the decoder and delivering
the decoded key to the UI layer), and sends EOI for vector 33.  It never
modifies the scancode queue, so after dispatching the vector on a
freshly initialized keyboard the byte is not retrievable via
`pop_scancode`, which returns `None` on the still-empty queue. -/
theorem keyboard_isr_state_effects (dec : Nat → Nat → Nat × Option Nat) (s : KState)
    (scancode : Nat) :
    (keyboard_interrupt_handler dec s scancode).scancode_queue = s.scancode_queue
    ∧ (keyboard_interrupt_handler dec s scancode).keyboard_initialized
        = s.keyboard_initialized
    ∧ (keyboard_interrupt_handler dec s scancode).eoi = s.eoi ++ [33]
    ∧ (keyboard_interrupt_handler dec s scancode).decoder = (dec s.decoder scancode).1
    ∧ ((keyboard_interrupt_handler dec s scancode).line =
        match (dec s.decoder scancode).2 with
        | some key => s.line ++ [key]
        | none => s.line) := by
  rcases hdec : dec s.decoder scancode with ⟨d', k⟩
  cases k <;>
    simp [keyboard_interrupt_handler, handle_scancode, hdec]

theorem get_scancode_of_fresh (s2 : KState)
    (hq : s2.scancode_queue = ArrayQueue.new 100)
    (hi : s2.keyboard_initialized = true) :
    get_scancode s2 = some (none, s2) := by
  obtain ⟨qopt, ki, dcd, ln, eo⟩ := s2
  have hq' : qopt = ArrayQueue.new 100 := hq
  have hi' : ki = true := hi
  subst hq'
  subst hi'
  rfl

/-- C1 as amended: the keyboard ISR reads the scancode byte from the
data port, decodes and processes it synchronously inside interrupt
context through `handle_scancode` (updating the decoder and delivering
the decoded key to the UI layer), and sends EOI for vector 33.  It never
modifies the scancode queue, so after dispatching the vector on a
freshly initialized keyboard the byte is not retrievable via
`pop_scancode`, which returns `None` on the still-empty queue. -/
theorem keyboard_isr_decodes_in_interrupt_context
    (dec : Nat → Nat → Nat × Option Nat) (s : KState) (scancode : Nat) :
    (keyboard_interrupt_handler dec s scancode).scancode_queue = s.scancode_queue
    ∧ (keyboard_interrupt_handler dec s scancode).eoi = s.eoi ++ [33]
    ∧ (keyboard_interrupt_handler dec s scancode).decoder = (dec s.decoder scancode).1
    ∧ ((keyboard_interrupt_handler dec s scancode).line =
        match (dec s.decoder scancode).2 with
        | some key => s.line ++ [key]
        | none => s.line)
    ∧ get_scancode (keyboard_interrupt_handler dec (keyboard_init s) scancode)
        = some (none, keyboard_interrupt_handler dec (keyboard_init s) scancode) := by
  have hp := keyboard_isr_state_effects dec s scancode
  have hp' := keyboard_isr_state_effects dec (keyboard_init s) scancode
  refine ⟨hp.1, hp.2.2.1, hp.2.2.2.1, hp.2.2.2.2, ?_⟩
  exact get_scancode_of_fresh _ (by rw [hp'.1]; rfl) (by rw [hp'.2.1]; rfl)

/-! # Part 5: boot sequencing (`src/lib.rs` `init`, `src/main.rs` `kernel_main`)

`kernel_main` is straight-line code; it is embedded as the list of boot
events it performs, in program order.  `screamos::init()` (lib.rs:69-104)
runs first and already enables interrupts; the frame allocator, heap
bootstrap and scancode-queue construction follow in `kernel_main`
(main.rs Steps 1-3).  The trace is parameterized by the result of
`init_heap` because `kernel_main` matches on it: `Err(_)` prints
"WARNING ... The system will continue with limited memory functionality"
and falls through — there is no halting branch, which the never-emitted
`fatalHalt` event makes expressible. -/

inductive BootStep where
  /-- `gdt::init()` -/
  | gdtInit
  /-- `logger::init()` -/
  | loggerInit
  /-- lazy construction of the `IDT` static inside `init_idt` -/
  | idtCtor
  /-- `IDT.load()` -/
  | idtLoad
  /-- `PICS.lock().initialize()` -/
  | picsInit
  /-- `x86_64::instructions::interrupts::enable()` -/
  | enableInterrupts
  /-- `simple_fs::init()` -/
  | fsInit
  /-- `ui::init()` -/
  | uiInit
  /-- `error_handler::init()` -/
  | errorHandlerInit
  /-- `change_theme(ThemeStyle::DOSClassic)` -/
  | themeChange
  /-- splash screen shown -/
  | splashShow
  /-- `memory::init(physical_memory_offset)` (page-table mapper) -/
  | mapperInit
  /-- `BootInfoFrameAllocator::init(&boot_info.memory_map)` -/
  | frameAllocCtor
  /-- `memory::init_heap(&mut mapper, &mut frame_allocator)` -/
  | heapInit
  /-- the `Ok` arm of the `init_heap` match -/
  | heapOkReport
  /-- the `Err` arm: warning printed, boot continues -/
  | heapWarnContinue
  /-- `screamos::keyboard::init()` (constructs the scancode queue) -/
  | queueCtor
  /-- Step 4: filesystem check -/
  | fsCheck
  /-- Step 5: `run_self_tests()` -/
  | selfTests
  /-- splash screen hidden -/
  | splashHide
  /-- `screamos::hlt_loop()` — the idle loop, entered unconditionally -/
  | hltLoop
  /-- a fatal boot abort; `kernel_main` has no such path, so this event
  never occurs in any trace -/
  | fatalHalt
  deriving DecidableEq, Repr

/-- Embedding of `screamos::init()` (lib.rs:69-104) as its event trace. -/
def libInitTrace : List BootStep :=
  [.gdtInit, .loggerInit, .idtCtor, .idtLoad, .picsInit, .enableInterrupts,
   .fsInit, .uiInit, .errorHandlerInit]

/-- Embedding of `kernel_main` (main.rs:32-102) as its event trace,
parameterized by the value `init_heap` returned. -/
def kernelMainTrace (heapResult : Except MapError Unit) : List BootStep :=
  libInitTrace ++ [.themeChange, .splashShow, .mapperInit, .frameAllocCtor, .heapInit] ++
  (match heapResult with
   | .ok _ => [.heapOkReport]
   | .error _ => [.heapWarnContinue]) ++
  [.queueCtor, .fsCheck, .selfTests, .splashHide, .hltLoop]

/-- C2 counterexample: in the actual boot order interrupts are enabled
inside `screamos::init()` — before `kernel_main` constructs the frame
allocator (Step 1), bootstraps the heap (Step 2) or constructs the
scancode queue (Step 3), contradicting the claimed ordering. -/
theorem boot_enables_interrupts_before_construction :
    (kernelMainTrace (.ok ())).indexOf .enableInterrupts
        < (kernelMainTrace (.ok ())).indexOf .frameAllocCtor
    ∧ (kernelMainTrace (.ok ())).indexOf .enableInterrupts
        < (kernelMainTrace (.ok ())).indexOf .heapInit
    ∧ (kernelMainTrace (.ok ())).indexOf .enableInterrupts
        < (kernelMainTrace (.ok ())).indexOf .queueCtor := by
  decide

/-- C2 as amended: the Frame Allocator, Interrupt Vector Table,
Controller state and Scancode Queue are each constructed exactly once
during boot, and the vector table and controller initialization precede
the single global enable-interrupts operation; but the frame allocator,
the heap bootstrap and the scancode queue are constructed only after
interrupts have been enabled. -/
theorem boot_construction_order (hr : Except MapError Unit) :
    ((kernelMainTrace hr).count .idtCtor = 1
      ∧ (kernelMainTrace hr).count .picsInit = 1
      ∧ (kernelMainTrace hr).count .frameAllocCtor = 1
      ∧ (kernelMainTrace hr).count .queueCtor = 1
      ∧ (kernelMainTrace hr).count .heapInit = 1
      ∧ (kernelMainTrace hr).count .enableInterrupts = 1)
    ∧ ((kernelMainTrace hr).indexOf .idtCtor
          < (kernelMainTrace hr).indexOf .enableInterrupts
      ∧ (kernelMainTrace hr).indexOf .picsInit
          < (kernelMainTrace hr).indexOf .enableInterrupts)
    ∧ ((kernelMainTrace hr).indexOf .enableInterrupts
          < (kernelMainTrace hr).indexOf .frameAllocCtor
      ∧ (kernelMainTrace hr).indexOf .enableInterrupts
          < (kernelMainTrace hr).indexOf .heapInit
      ∧ (kernelMainTrace hr).indexOf .enableInterrupts
          < (kernelMainTrace hr).indexOf .queueCtor) := by
  rcases hr with e | u
  · cases e <;> decide
  · cases u
    decide

/-- C3 counterexample: on the heap-failure path `kernel_main` still
constructs the scancode queue and reaches the idle loop — the boot
sequence does not halt after a failed heap initialization. -/
theorem boot_continues_after_heap_failure :
    BootStep.queueCtor ∈ kernelMainTrace (.error .FrameAllocationFailed)
    ∧ BootStep.selfTests ∈ kernelMainTrace (.error .FrameAllocationFailed)
    ∧ BootStep.hltLoop ∈ kernelMainTrace (.error .FrameAllocationFailed)
    ∧ BootStep.fatalHalt ∉ kernelMainTrace (.error .FrameAllocationFailed) := by
  decide

/-- C3 as amended: when usable frames are exhausted the failure is
surfaced to `kernel_main` as `Err(FrameAllocationFailed)` (shown on the
Scenario-B allocator with zero remaining frames), but `kernel_main` then
prints a warning and continues the boot sequence in degraded mode —
keyboard/scancode-queue init, filesystem check, self tests, and finally
the idle loop — instead of halting. -/
theorem heap_failure_surfaced_boot_continues (e : MapError) :
    (init_heap tryMapScenB (List.range 25) ((0 : Nat), (0 : Nat))).1.1
        = .error .FrameAllocationFailed
    ∧ BootStep.heapWarnContinue ∈ kernelMainTrace (.error e)
    ∧ BootStep.queueCtor ∈ kernelMainTrace (.error e)
    ∧ BootStep.hltLoop ∈ kernelMainTrace (.error e)
    ∧ BootStep.fatalHalt ∉ kernelMainTrace (.error e) := by
  cases e <;> exact ⟨rfl, by decide, by decide, by decide, by decide⟩

/-- Witness for C3's amended theorem at a concrete error value. -/
theorem heap_failure_surfaced_boot_continues_witness :
    (init_heap tryMapScenB (List.range 25) ((0 : Nat), (0 : Nat))).1.1
        = .error .FrameAllocationFailed :=
  (heap_failure_surfaced_boot_continues .FrameAllocationFailed).1
